import Mathlib

/-!
Shallow embedding of the Gantt timeline layout logic of flight-chart-hub
(the `GanttView` component): the timeline window calculator, the event
positioner `getFlightPosition`, and the label/separator generators.

Instants are modelled as integer milliseconds since the Unix epoch (UTC);
fractional hour quantities are modelled as exact rationals, matching the
arithmetic the source performs on millisecond differences.
-/

namespace Gantt

/-- Milliseconds per hour, the divisor `(1000 * 60 * 60)` of the source. -/
def msPerHour : ℤ := 1000 * 60 * 60

/-- Milliseconds per UTC day. -/
def msPerDay : ℤ := 24 * msPerHour

/-- JavaScript `Math.trunc` on a rational: rounding toward zero. -/
def jsTrunc (q : ℚ) : ℤ := if 0 ≤ q then ⌊q⌋ else ⌈q⌉

/-- JavaScript `%` (remainder) on rationals: `a - b * trunc (a / b)`,
taking the sign of the dividend. -/
def jsMod (a b : ℚ) : ℚ := a - b * jsTrunc (a / b)

/-- date-fns `differenceInDays` in a pure-UTC model: the number of whole
24-hour periods between two instants, rounded toward zero. -/
def differenceInDays (a b : ℤ) : ℤ :=
  if 0 ≤ a - b then (a - b).fdiv msPerDay else -((b - a).fdiv msPerDay)

/-- The instant of UTC midnight of the calendar day containing `t`:
what the source computes via `Date.UTC(getUTCFullYear(), getUTCMonth(), getUTCDate(), 0, 0, 0, 0)`. -/
def floorToDayMs (t : ℤ) : ℤ := t.fdiv msPerDay * msPerDay

/-- The instant the start-date picker stores for a picked calendar day `d`
(day index since epoch): UTC midnight of that day. -/
def pickedStartInstant (d : ℤ) : ℤ := d * msPerDay

/-- The instant the end-date picker stores for a picked calendar day `d`:
UTC 23:59:59.999 of that day. -/
def pickedEndInstant (d : ℤ) : ℤ := d * msPerDay + 86399999

/-- The derived timeline window of `GanttView`: `numDays`, `dayStart`,
`dayEnd`, `totalHoursInRange` and `numChunks`, together with the selected
chunk granularity `timeView` (hours per chunk). -/
structure Window where
  numDays : ℤ
  dayStart : ℤ
  dayEnd : ℤ
  totalHoursInRange : ℤ
  numChunks : ℤ
  timeView : ℤ
  deriving Repr, DecidableEq

/-- The window calculator of `GanttView` (lines computing `numDays`,
`dayStart`, `dayEnd`, `totalHoursInRange`, `numChunks`), as a function of
the `startDate` and `endDate` state instants and the selected `timeView`. -/
def ganttWindow (startDate endDate timeView : ℤ) : Window :=
  let numDays := differenceInDays endDate startDate + 1
  let totalHours := numDays * 24
  { numDays := numDays
    dayStart := floorToDayMs startDate
    dayEnd := floorToDayMs endDate + 86399999
    totalHoursInRange := totalHours
    numChunks := ⌈(totalHours : ℚ) / (timeView : ℚ)⌉
    timeView := timeView }

/-- The `totalHoursFromStart` computation of the source for an instant `t` (ms):
`(t - dayStart) / (1000 * 60 * 60)` as an exact rational number of hours. -/
def totalHoursFromStart (w : Window) (t : ℤ) : ℚ :=
  ((t - w.dayStart : ℤ) : ℚ) / ((1000 * 60 * 60 : ℤ) : ℚ)

/-- The record returned by `getFlightPosition`; `left` and `width` carry the
numeric percentage values the source interpolates into CSS strings. -/
structure FlightPosition where
  left : ℚ
  width : ℚ
  visible : Bool
  chunkIndex : ℤ
  deriving Repr, DecidableEq

/-- The event positioner `getFlightPosition` of `GanttView`: maps the
departure and arrival instants (ms) to its horizontal placement within the
chunked timeline. -/
def getFlightPosition (w : Window) (departureMs arrivalMs : ℤ) : FlightPosition :=
  let hoursFromStart := totalHoursFromStart w departureMs
  let hoursToArrival := totalHoursFromStart w arrivalMs
  if hoursFromStart < 0 ∨ (w.totalHoursInRange : ℚ) ≤ hoursFromStart then
    { left := 0, width := 0, visible := false, chunkIndex := -1 }
  else
    let departureChunk : ℤ := ⌊hoursFromStart / (w.timeView : ℚ)⌋
    let hoursWithinChunk : ℚ := jsMod hoursFromStart (w.timeView : ℚ)
    let duration : ℚ := hoursToArrival - hoursFromStart
    let chunkLeftPercent : ℚ := ((departureChunk : ℚ) / (w.numChunks : ℚ)) * 100
    let positionWithinChunkPercent : ℚ :=
      (hoursWithinChunk / (w.timeView : ℚ)) * (100 / (w.numChunks : ℚ))
    let widthPercent : ℚ := (duration / (w.timeView : ℚ)) * (100 / (w.numChunks : ℚ))
    { left := chunkLeftPercent + positionWithinChunkPercent
      width := max (1/2) widthPercent
      visible := true
      chunkIndex := departureChunk }

/-- One vertical grid line emitted by `generateHourSeparators`: its
horizontal position (percent of the container) and the chunk and
within-chunk hour boundary it marks. -/
structure Separator where
  position : ℚ
  chunkIndex : ℕ
  hour : ℕ
  deriving Repr, DecidableEq

/-- The separator generator `generateHourSeparators` of `GanttView`: for
every chunk and every hour boundary `0 ≤ hour ≤ timeView` it computes
`(chunkIndex / numChunks) * 100 + (hour / timeView) * (100 / numChunks)`,
skipping the `hour = 0` boundary of every chunk after the first. -/
def generateHourSeparators (numChunks timeView : ℕ) : List Separator :=
  (List.range numChunks).flatMap fun (chunkIndex : ℕ) =>
    (List.range (timeView + 1)).filterMap fun (hour : ℕ) =>
      let chunkLeftPercent : ℚ := ((chunkIndex : ℚ) / (numChunks : ℚ)) * 100
      let hourPositionPercent : ℚ :=
        ((hour : ℚ) / (timeView : ℚ)) * (100 / (numChunks : ℚ))
      if hour = 0 ∧ 0 < chunkIndex then none
      else some { position := chunkLeftPercent + hourPositionPercent
                  chunkIndex := chunkIndex
                  hour := hour }

/-- One hour tick emitted by `generateTimeLabels`: the displayed hour of
day, the chunk it belongs to, its width in hours, and its label text. -/
structure TimeLabel where
  hour : ℕ
  chunkIndex : ℕ
  width : ℕ
  label : String
  deriving Repr, DecidableEq

/-- The tick interval `generateTimeLabels` derives from the time view:
every hour for the 24-hour and 6-hour views, every 2 hours for the
12-hour view. -/
def timeLabelInterval (timeView : ℕ) : ℕ :=
  if timeView = 24 then 1
  else if timeView = 12 then 2
  else 1

/-- JavaScript `String.padStart(2, "0")`: prepends zero characters until the
string is at least two characters long. -/
def padStart2 (s : String) : String :=
  ⟨List.replicate (2 - s.length) (Char.ofNat 48) ++ s.data⟩

/-- The hours visited by the loop `for (hour = 0; hour < timeView;
hour += interval)`: the multiples of `interval` below `timeView`. -/
def hourSteps (timeView interval : ℕ) : List ℕ :=
  (List.range ((timeView + interval - 1) / interval)).map (· * interval)

/-- The time-label generator `generateTimeLabels` of `GanttView`: for every
chunk it emits a tick at each multiple of the interval below `timeView`,
labelled with the absolute hour reduced mod 24, zero-padded to two digits,
followed by minutes. -/
def generateTimeLabels (numChunks timeView : ℕ) : List TimeLabel :=
  let interval := timeLabelInterval timeView
  (List.range numChunks).flatMap fun chunkIndex =>
    let chunkStartHour := chunkIndex * timeView
    (hourSteps timeView interval).map fun hour =>
      let absoluteHour := chunkStartHour + hour
      let hourInDayForLabel := absoluteHour % 24
      { hour := hourInDayForLabel
        chunkIndex := chunkIndex
        width := interval
        label := padStart2 (toString hourInDayForLabel) ++ ":00" }

/-- The date-range state of `GanttView`: the `startDate` and `endDate`
instants held in component state. -/
structure DateRangeState where
  startDate : ℤ
  endDate : ℤ
  deriving Repr, DecidableEq

/-- The `onSelect` handler of the start-date picker: stores UTC midnight of the
picked day `d`, and when that instant exceeds the current `endDate` also
moves `endDate` two days past it. -/
def startDateOnSelect (s : DateRangeState) (d : ℤ) : DateRangeState :=
  let utcDate := pickedStartInstant d
  if utcDate > s.endDate then
    { startDate := utcDate, endDate := utcDate + 2 * msPerDay }
  else
    { startDate := utcDate, endDate := s.endDate }

/-- The `onSelect` handler of the end-date picker: stores UTC 23:59:59.999 of the
picked day `d`, and when that instant precedes the current `startDate` also
moves `startDate` two days before it. -/
def endDateOnSelect (s : DateRangeState) (d : ℤ) : DateRangeState :=
  let utcDate := pickedEndInstant d
  if utcDate < s.startDate then
    { startDate := utcDate + (-2) * msPerDay, endDate := utcDate }
  else
    { startDate := s.startDate, endDate := utcDate }

/-! Helper lemmas. -/

lemma timeView_pos {tv : ℤ} (htv : tv = 6 ∨ tv = 12 ∨ tv = 24) : 0 < tv := by
  rcases htv with h | h | h <;> simp [h]

lemma jsTrunc_of_nonneg {q : ℚ} (h : 0 ≤ q) : jsTrunc q = ⌊q⌋ := by
  simp [jsTrunc, h]

lemma jsMod_eq_sub_floor {a b : ℚ} (ha : 0 ≤ a) (hb : 0 < b) :
    jsMod a b = a - b * ⌊a / b⌋ := by
  rw [jsMod, jsTrunc_of_nonneg (div_nonneg ha hb.le)]

/-- When the chunk size divides the total hours, `Math.ceil` of the chunk
count is exact: `numChunks * timeView = totalHoursInRange`. -/
lemma numChunks_mul_timeView (w : Window)
    (htv : w.timeView = 6 ∨ w.timeView = 12 ∨ w.timeView = 24)
    (htot : w.totalHoursInRange = w.numDays * 24)
    (hN : w.numChunks = ⌈(w.totalHoursInRange : ℚ) / (w.timeView : ℚ)⌉) :
    w.numChunks * w.timeView = w.totalHoursInRange := by
  have hdvd : w.timeView ∣ w.totalHoursInRange := by
    rw [htot]
    refine Dvd.dvd.mul_left ?_ w.numDays
    rcases htv with h | h | h <;> rw [h]
    · exact ⟨4, rfl⟩
    · exact ⟨2, rfl⟩
  obtain ⟨k, hk⟩ := hdvd
  have htvne : (w.timeView : ℚ) ≠ 0 := by
    exact_mod_cast (timeView_pos htv).ne.symm
  have : (w.totalHoursInRange : ℚ) / (w.timeView : ℚ) = ((k : ℤ) : ℚ) := by
    rw [hk]; push_cast; field_simp
  rw [hN, this, Int.ceil_intCast, hk]; ring

lemma numChunks_pos (w : Window)
    (htv : w.timeView = 6 ∨ w.timeView = 12 ∨ w.timeView = 24)
    (hdays : 1 ≤ w.numDays)
    (htot : w.totalHoursInRange = w.numDays * 24)
    (hN : w.numChunks = ⌈(w.totalHoursInRange : ℚ) / (w.timeView : ℚ)⌉) :
    0 < w.numChunks := by
  have hmul := numChunks_mul_timeView w htv htot hN
  have htvpos := timeView_pos htv
  nlinarith

/-- Inside the window, `getFlightPosition` takes the else-branch and its
fields are the literal chunk-arithmetic expressions of the source. -/
lemma getFlightPosition_eq_inside (w : Window) (dep arr : ℤ)
    (htv : 0 < w.timeView)
    (h0 : 0 ≤ totalHoursFromStart w dep)
    (h1 : totalHoursFromStart w dep < (w.totalHoursInRange : ℚ)) :
    getFlightPosition w dep arr =
      { left := ((⌊totalHoursFromStart w dep / (w.timeView : ℚ)⌋ : ℚ) / (w.numChunks : ℚ)) * 100
          + ((totalHoursFromStart w dep
                - (w.timeView : ℚ) * ⌊totalHoursFromStart w dep / (w.timeView : ℚ)⌋)
              / (w.timeView : ℚ)) * (100 / (w.numChunks : ℚ))
        width := max (1/2)
          ((((arr - dep : ℤ) : ℚ) / ((1000 * 60 * 60 : ℤ) : ℚ)) / (w.timeView : ℚ)
            * (100 / (w.numChunks : ℚ)))
        visible := true
        chunkIndex := ⌊totalHoursFromStart w dep / (w.timeView : ℚ)⌋ } := by
  have hcond : ¬(totalHoursFromStart w dep < 0 ∨
      (w.totalHoursInRange : ℚ) ≤ totalHoursFromStart w dep) := by
    push_neg
    exact ⟨h0, h1⟩
  have hdur : totalHoursFromStart w arr - totalHoursFromStart w dep
      = ((arr - dep : ℤ) : ℚ) / ((1000 * 60 * 60 : ℤ) : ℚ) := by
    unfold totalHoursFromStart
    push_cast
    ring
  simp only [getFlightPosition]
  rw [if_neg hcond, jsMod_eq_sub_floor h0 (by exact_mod_cast htv), hdur]

/-- The left percentage collapses to a single fraction of the departure
offset when the chunk count and chunk size are nonzero. -/
lemma left_collapse (hFS : ℚ) (N tv : ℚ) (hN : N ≠ 0) (htv : tv ≠ 0) :
    ((⌊hFS / tv⌋ : ℚ) / N) * 100 + ((hFS - tv * ⌊hFS / tv⌋) / tv) * (100 / N)
      = 100 * hFS / (N * tv) := by
  field_simp
  ring

/-- The departure-offset sign test at the millisecond level. -/
lemma totalHoursFromStart_neg_iff (w : Window) (t : ℤ) :
    totalHoursFromStart w t < 0 ↔ t < w.dayStart := by
  unfold totalHoursFromStart
  rw [div_lt_iff (by norm_num), zero_mul]
  constructor
  · intro h
    have : (t - w.dayStart : ℤ) < 0 := by exact_mod_cast h
    omega
  · intro h
    have : ((t - w.dayStart : ℤ) : ℚ) < ((0 : ℤ) : ℚ) := by
      exact_mod_cast (by omega : (t - w.dayStart : ℤ) < 0)
    simpa using this

/-- The departure-offset lower-bound test at the millisecond level. -/
lemma totalHoursFromStart_nonneg_iff (w : Window) (t : ℤ) :
    0 ≤ totalHoursFromStart w t ↔ w.dayStart ≤ t := by
  rw [← not_lt, totalHoursFromStart_neg_iff, not_lt]

/-- The departure-offset upper-bound test at the millisecond level. -/
lemma le_totalHoursFromStart_iff (w : Window) (t H : ℤ) :
    (H : ℚ) ≤ totalHoursFromStart w t ↔ w.dayStart + H * msPerHour ≤ t := by
  unfold totalHoursFromStart
  rw [le_div_iff (by norm_num)]
  constructor
  · intro h
    have : (H * (1000 * 60 * 60) : ℤ) ≤ t - w.dayStart := by exact_mod_cast h
    simp only [msPerHour]
    omega
  · intro h
    have : ((H * (1000 * 60 * 60) : ℤ) : ℚ) ≤ ((t - w.dayStart : ℤ) : ℚ) := by
      exact_mod_cast (by simp only [msPerHour] at h; omega : (H * (1000 * 60 * 60) : ℤ) ≤ t - w.dayStart)
    push_cast at this ⊢
    linarith

/-- The strict departure-offset upper-bound test at the millisecond level. -/
lemma totalHoursFromStart_lt_iff (w : Window) (t H : ℤ) :
    totalHoursFromStart w t < (H : ℚ) ↔ t < w.dayStart + H * msPerHour := by
  rw [← not_le, le_totalHoursFromStart_iff, not_le]

/-! Claim theorems. -/

/-- C3: a flight whose departure offset is negative or at least
`totalHoursInRange` is reported not visible with zero left and width and
chunk index -1; the arrival instant is arbitrary (in particular it may fall
inside the window), and the function is total, so no error is raised. -/
theorem getFlightPosition_outside_window (w : Window) (dep arr : ℤ)
    (h : totalHoursFromStart w dep < 0 ∨
      (w.totalHoursInRange : ℚ) ≤ totalHoursFromStart w dep) :
    getFlightPosition w dep arr =
      { left := 0, width := 0, visible := false, chunkIndex := -1 } := by
  simp only [getFlightPosition]
  rw [if_pos h]

/-- C3 witness: the window 1970-01-01 (one day, 24-hour chunks) with a
departure one hour before the window and arrival inside it. -/
theorem getFlightPosition_outside_window_witness :
    totalHoursFromStart
        { numDays := 1, dayStart := 0, dayEnd := 86399999,
          totalHoursInRange := 24, numChunks := 1, timeView := 24 }
        (-3600000) < 0 ∧
    getFlightPosition
        { numDays := 1, dayStart := 0, dayEnd := 86399999,
          totalHoursInRange := 24, numChunks := 1, timeView := 24 }
        (-3600000) 7200000 =
      { left := 0, width := 0, visible := false, chunkIndex := -1 } :=
  ⟨(totalHoursFromStart_neg_iff
      { numDays := 1, dayStart := 0, dayEnd := 86399999,
        totalHoursInRange := 24, numChunks := 1, timeView := 24 }
      (-3600000)).mpr (by decide),
   getFlightPosition_outside_window
     { numDays := 1, dayStart := 0, dayEnd := 86399999,
       totalHoursInRange := 24, numChunks := 1, timeView := 24 }
     (-3600000) 7200000
     (Or.inl ((totalHoursFromStart_neg_iff
       { numDays := 1, dayStart := 0, dayEnd := 86399999,
         totalHoursInRange := 24, numChunks := 1, timeView := 24 }
       (-3600000)).mpr (by decide)))⟩

/-- C1: for a departure offset inside the window, `getFlightPosition`
reports the flight visible, in chunk `floor(hoursFromStart / chunkHours)`,
at left percentage `(chunkIndex / numChunks) * 100 +
((hoursFromStart mod chunkHours) / chunkHours) * (100 / numChunks)` (the
mod written out as `hoursFromStart - chunkHours * floor(hoursFromStart /
chunkHours)`), with width `max(0.5, duration / chunkHours *
(100 / numChunks))` where the duration is the arrival minus departure
difference in fractional hours. -/
theorem getFlightPosition_inside_formula (w : Window) (dep arr : ℤ)
    (htv : w.timeView = 6 ∨ w.timeView = 12 ∨ w.timeView = 24)
    (h0 : 0 ≤ totalHoursFromStart w dep)
    (h1 : totalHoursFromStart w dep < (w.totalHoursInRange : ℚ)) :
    getFlightPosition w dep arr =
      { left := ((⌊totalHoursFromStart w dep / (w.timeView : ℚ)⌋ : ℚ) / (w.numChunks : ℚ)) * 100
          + ((totalHoursFromStart w dep
                - (w.timeView : ℚ) * ⌊totalHoursFromStart w dep / (w.timeView : ℚ)⌋)
              / (w.timeView : ℚ)) * (100 / (w.numChunks : ℚ))
        width := max (1/2)
          ((((arr - dep : ℤ) : ℚ) / ((1000 * 60 * 60 : ℤ) : ℚ)) / (w.timeView : ℚ)
            * (100 / (w.numChunks : ℚ)))
        visible := true
        chunkIndex := ⌊totalHoursFromStart w dep / (w.timeView : ℚ)⌋ } :=
  getFlightPosition_eq_inside w dep arr (timeView_pos htv) h0 h1

/-- C1 witness: a one-day window with 24-hour chunks and a flight from
05:00 to 10:00. -/
theorem getFlightPosition_inside_formula_witness :
    (0 ≤ totalHoursFromStart
        { numDays := 1, dayStart := 0, dayEnd := 86399999,
          totalHoursInRange := 24, numChunks := 1, timeView := 24 } 18000000) ∧
    (totalHoursFromStart
        { numDays := 1, dayStart := 0, dayEnd := 86399999,
          totalHoursInRange := 24, numChunks := 1, timeView := 24 } 18000000
      < ((24 : ℤ) : ℚ)) ∧
    getFlightPosition
        { numDays := 1, dayStart := 0, dayEnd := 86399999,
          totalHoursInRange := 24, numChunks := 1, timeView := 24 } 18000000 36000000 =
      { left := ((⌊totalHoursFromStart
              { numDays := 1, dayStart := 0, dayEnd := 86399999,
                totalHoursInRange := 24, numChunks := 1, timeView := 24 } 18000000
              / ((24 : ℤ) : ℚ)⌋ : ℚ) / ((1 : ℤ) : ℚ)) * 100
          + ((totalHoursFromStart
                { numDays := 1, dayStart := 0, dayEnd := 86399999,
                  totalHoursInRange := 24, numChunks := 1, timeView := 24 } 18000000
                - ((24 : ℤ) : ℚ) * ⌊totalHoursFromStart
                    { numDays := 1, dayStart := 0, dayEnd := 86399999,
                      totalHoursInRange := 24, numChunks := 1, timeView := 24 } 18000000
                    / ((24 : ℤ) : ℚ)⌋)
              / ((24 : ℤ) : ℚ)) * (100 / ((1 : ℤ) : ℚ))
        width := max (1/2)
          ((((36000000 - 18000000 : ℤ) : ℚ) / ((1000 * 60 * 60 : ℤ) : ℚ)) / ((24 : ℤ) : ℚ)
            * (100 / ((1 : ℤ) : ℚ)))
        visible := true
        chunkIndex := ⌊totalHoursFromStart
            { numDays := 1, dayStart := 0, dayEnd := 86399999,
              totalHoursInRange := 24, numChunks := 1, timeView := 24 } 18000000
            / ((24 : ℤ) : ℚ)⌋ } :=
  ⟨(totalHoursFromStart_nonneg_iff
      { numDays := 1, dayStart := 0, dayEnd := 86399999,
        totalHoursInRange := 24, numChunks := 1, timeView := 24 } 18000000).mpr (by decide),
   (totalHoursFromStart_lt_iff
      { numDays := 1, dayStart := 0, dayEnd := 86399999,
        totalHoursInRange := 24, numChunks := 1, timeView := 24 } 18000000 24).mpr (by decide),
   getFlightPosition_inside_formula
     { numDays := 1, dayStart := 0, dayEnd := 86399999,
       totalHoursInRange := 24, numChunks := 1, timeView := 24 } 18000000 36000000
     (Or.inr (Or.inr rfl))
     ((totalHoursFromStart_nonneg_iff _ 18000000).mpr (by decide))
     ((totalHoursFromStart_lt_iff _ 18000000 24).mpr (by decide))⟩

/-- C7: `getFlightPosition` is a total function and performs no
arrival-after-departure validation: when `arrival ≤ departure` and the
departure offset is inside the window, it still reports the flight visible
and the width is exactly the 0.5 floor. -/
theorem getFlightPosition_degenerate_duration (w : Window) (dep arr : ℤ)
    (htv : w.timeView = 6 ∨ w.timeView = 12 ∨ w.timeView = 24)
    (hN : 1 ≤ w.numChunks)
    (harr : arr ≤ dep)
    (h0 : 0 ≤ totalHoursFromStart w dep)
    (h1 : totalHoursFromStart w dep < (w.totalHoursInRange : ℚ)) :
    (getFlightPosition w dep arr).visible = true ∧
    (getFlightPosition w dep arr).width = 1/2 := by
  rw [getFlightPosition_eq_inside w dep arr (timeView_pos htv) h0 h1]
  refine ⟨rfl, ?_⟩
  show max (1/2) _ = 1/2
  rw [max_eq_left]
  have hd : ((arr - dep : ℤ) : ℚ) ≤ 0 := by
    exact_mod_cast (by omega : (arr - dep : ℤ) ≤ (0 : ℤ))
  have htvq : (0 : ℚ) < (w.timeView : ℚ) := by exact_mod_cast timeView_pos htv
  have hNq : (0 : ℚ) < (w.numChunks : ℚ) := by exact_mod_cast hN
  have h2 : ((arr - dep : ℤ) : ℚ) / ((1000 * 60 * 60 : ℤ) : ℚ) / (w.timeView : ℚ) ≤ 0 := by
    apply div_nonpos_iff.mpr
    right
    constructor
    · apply div_nonpos_iff.mpr
      right
      exact ⟨hd, by norm_num⟩
    · exact htvq.le
  have h3 : (0 : ℚ) ≤ 100 / (w.numChunks : ℚ) := by positivity
  calc ((arr - dep : ℤ) : ℚ) / ((1000 * 60 * 60 : ℤ) : ℚ) / (w.timeView : ℚ)
        * (100 / (w.numChunks : ℚ))
      ≤ 0 := mul_nonpos_of_nonpos_of_nonneg h2 h3
    _ ≤ 1/2 := by norm_num

/-- C7 witness: a one-day window with 24-hour chunks and a record whose
arrival equals its departure at 05:00. -/
theorem getFlightPosition_degenerate_duration_witness :
    (18000000 : ℤ) ≤ 18000000 ∧
    (getFlightPosition
        { numDays := 1, dayStart := 0, dayEnd := 86399999,
          totalHoursInRange := 24, numChunks := 1, timeView := 24 }
        18000000 18000000).visible = true ∧
    (getFlightPosition
        { numDays := 1, dayStart := 0, dayEnd := 86399999,
          totalHoursInRange := 24, numChunks := 1, timeView := 24 }
        18000000 18000000).width = 1/2 :=
  ⟨le_refl _,
   getFlightPosition_degenerate_duration
     { numDays := 1, dayStart := 0, dayEnd := 86399999,
       totalHoursInRange := 24, numChunks := 1, timeView := 24 }
     18000000 18000000 (Or.inr (Or.inr rfl)) (by decide) (le_refl _)
     ((totalHoursFromStart_nonneg_iff _ 18000000).mpr (by decide))
     ((totalHoursFromStart_lt_iff _ 18000000 24).mpr (by decide))⟩

/-- C8: after any start-date or end-date picker selection the invariant
`startDate ≤ endDate` holds: each handler moves the other side of the
window whenever the newly selected instant would invert it. -/
theorem dateRange_select_invariant (s : DateRangeState) (d : ℤ) :
    (startDateOnSelect s d).startDate ≤ (startDateOnSelect s d).endDate ∧
    (endDateOnSelect s d).startDate ≤ (endDateOnSelect s d).endDate := by
  constructor
  · simp only [startDateOnSelect, pickedStartInstant]
    split_ifs with h
    · simp only [msPerDay, msPerHour]
      omega
    · simp only
      omega
  · simp only [endDateOnSelect, pickedEndInstant]
    split_ifs with h
    · simp only [msPerDay, msPerHour]
      omega
    · simp only
      omega

/-- C4: for calendar start/end days `s ≤ e` and a chunk granularity in
{6, 12, 24}, the window calculator produces UTC midnight of the start day,
UTC 23:59:59.999 of the end day, the inclusive day count, `numDays * 24`
total hours, and the ceiling chunk count. -/
theorem ganttWindow_calculator_spec (s e tv : ℤ) (hse : s ≤ e)
    (htv : tv = 6 ∨ tv = 12 ∨ tv = 24) :
    (ganttWindow (pickedStartInstant s) (pickedEndInstant e) tv).dayStart = s * msPerDay ∧
    (ganttWindow (pickedStartInstant s) (pickedEndInstant e) tv).dayEnd
      = e * msPerDay + 86399999 ∧
    (ganttWindow (pickedStartInstant s) (pickedEndInstant e) tv).numDays = e - s + 1 ∧
    (ganttWindow (pickedStartInstant s) (pickedEndInstant e) tv).totalHoursInRange
      = (e - s + 1) * 24 ∧
    (ganttWindow (pickedStartInstant s) (pickedEndInstant e) tv).numChunks
      = ⌈(((e - s + 1) * 24 : ℤ) : ℚ) / ((tv : ℤ) : ℚ)⌉ := by
  have hD0 : (0 : ℤ) ≤ msPerDay := by norm_num [msPerDay, msPerHour]
  have hge : 0 ≤ pickedEndInstant e - pickedStartInstant s := by
    simp only [pickedEndInstant, pickedStartInstant, msPerDay, msPerHour]
    nlinarith
  have hdd : differenceInDays (pickedEndInstant e) (pickedStartInstant s) = e - s := by
    unfold differenceInDays
    rw [if_pos hge, Int.fdiv_eq_ediv _ hD0]
    simp only [pickedEndInstant, pickedStartInstant, msPerDay, msPerHour]
    have : e * (24 * (1000 * 60 * 60)) + 86399999 - s * (24 * (1000 * 60 * 60))
        = (e - s) * 86400000 + 86399999 := by ring
    rw [this]
    omega
  have hds : floorToDayMs (pickedStartInstant s) = s * msPerDay := by
    unfold floorToDayMs pickedStartInstant
    rw [Int.fdiv_eq_ediv _ hD0, Int.mul_ediv_cancel _ (by norm_num [msPerDay, msPerHour])]
  have hdee : floorToDayMs (pickedEndInstant e) = e * msPerDay := by
    unfold floorToDayMs pickedEndInstant
    rw [Int.fdiv_eq_ediv _ hD0]
    simp only [msPerDay, msPerHour]
    have h : (24 * (1000 * 60 * 60) : ℤ) = 86400000 := by norm_num
    rw [h]
    omega
  refine ⟨?_, ?_, ?_, ?_, ?_⟩ <;>
    simp only [ganttWindow, hdd, hds, hdee]

/-- C4 witness: start day 0, end day 1, 12-hour chunks. -/
theorem ganttWindow_calculator_spec_witness :
    (0 : ℤ) ≤ 1 ∧
    ((ganttWindow (pickedStartInstant 0) (pickedEndInstant 1) 12).dayStart = 0 * msPerDay ∧
     (ganttWindow (pickedStartInstant 0) (pickedEndInstant 1) 12).dayEnd
       = 1 * msPerDay + 86399999 ∧
     (ganttWindow (pickedStartInstant 0) (pickedEndInstant 1) 12).numDays = 1 - 0 + 1 ∧
     (ganttWindow (pickedStartInstant 0) (pickedEndInstant 1) 12).totalHoursInRange
       = (1 - 0 + 1) * 24 ∧
     (ganttWindow (pickedStartInstant 0) (pickedEndInstant 1) 12).numChunks
       = ⌈(((1 - 0 + 1) * 24 : ℤ) : ℚ) / ((12 : ℤ) : ℚ)⌉) :=
  ⟨by decide,
   ganttWindow_calculator_spec 0 1 12 (by decide) (Or.inr (Or.inl rfl))⟩

/-- C9: in the window 2025-01-01 to 2025-01-02 (day indices 20089 and
20090) with 6-hour chunks, `numChunks = 8`, and the flight departing
2025-01-01T07:00Z has `hoursFromStart = 7`, `hoursWithinChunk = 1`,
`departureChunk = 1`, and `leftPercent = (1/8)*100 + (1/6)*(100/8)`
(exactly 175/12, displayed as 14.58), all in exact arithmetic. -/
theorem scenario_chunkHours6 :
    (ganttWindow (pickedStartInstant 20089) (pickedEndInstant 20090) 6).numChunks = 8 ∧
    totalHoursFromStart (ganttWindow (pickedStartInstant 20089) (pickedEndInstant 20090) 6)
      1735714800000 = 7 ∧
    jsMod (totalHoursFromStart
        (ganttWindow (pickedStartInstant 20089) (pickedEndInstant 20090) 6)
        1735714800000) 6 = 1 ∧
    (getFlightPosition (ganttWindow (pickedStartInstant 20089) (pickedEndInstant 20090) 6)
        1735714800000 1735718400000).visible = true ∧
    (getFlightPosition (ganttWindow (pickedStartInstant 20089) (pickedEndInstant 20090) 6)
        1735714800000 1735718400000).chunkIndex = 1 ∧
    (getFlightPosition (ganttWindow (pickedStartInstant 20089) (pickedEndInstant 20090) 6)
        1735714800000 1735718400000).left = (1/8) * 100 + (1/6) * (100/8) := by
  have hdd : differenceInDays (pickedEndInstant 20090) (pickedStartInstant 20089) = 1 := by
    decide
  have hds : floorToDayMs (pickedStartInstant 20089) = 1735689600000 := by decide
  have hde : floorToDayMs (pickedEndInstant 20090) = 1735776000000 := by decide
  have hW : ganttWindow (pickedStartInstant 20089) (pickedEndInstant 20090) 6 =
      { numDays := 2, dayStart := 1735689600000, dayEnd := 1735862399999,
        totalHoursInRange := 48, numChunks := 8, timeView := 6 } := by
    simp only [ganttWindow, hdd, hds, hde, Window.mk.injEq]
    norm_num
  rw [hW]
  have hFS : totalHoursFromStart
      { numDays := 2, dayStart := 1735689600000, dayEnd := 1735862399999,
        totalHoursInRange := 48, numChunks := 8, timeView := 6 }
      (1735714800000 : ℤ) = 7 := by
    unfold totalHoursFromStart
    norm_num
  have hmod : jsMod 7 6 = 1 := by
    rw [jsMod_eq_sub_floor (by norm_num) (by norm_num)]
    norm_num
  have hpos := getFlightPosition_eq_inside
    { numDays := 2, dayStart := 1735689600000, dayEnd := 1735862399999,
      totalHoursInRange := 48, numChunks := 8, timeView := 6 }
    1735714800000 1735718400000 (by norm_num) (by rw [hFS]; norm_num)
    (by rw [hFS]; norm_num)
  rw [hpos]
  refine ⟨rfl, hFS, ?_, rfl, ?_, ?_⟩
  · rw [hFS]
    exact hmod
  · show (⌊totalHoursFromStart _ _ / ((6 : ℤ) : ℚ)⌋ : ℤ) = 1
    rw [hFS]
    norm_num
  · show ((⌊totalHoursFromStart _ _ / ((6 : ℤ) : ℚ)⌋ : ℚ) / ((8 : ℤ) : ℚ)) * 100
        + ((totalHoursFromStart _ _ - ((6 : ℤ) : ℚ) * ⌊totalHoursFromStart _ _ / ((6 : ℤ) : ℚ)⌋)
            / ((6 : ℤ) : ℚ)) * (100 / ((8 : ℤ) : ℚ)) = (1/8) * 100 + (1/6) * (100/8)
    rw [hFS]
    norm_num

/-- C2: for a window produced by the calculator (fields related as the
calculator relates them) and any event departing between `dayStart` and
`dayEnd` inclusive, the position is visible with `0 ≤ leftPercent < 100`
and `widthPercent ≥ 0.5`; departing exactly at `dayStart` gives
`leftPercent = 0`, and departing at `dayEnd`, the last representable
instant of the window, gives chunk index `numChunks - 1`. -/
theorem getFlightPosition_in_window_bounds (w : Window) (dep arr : ℤ)
    (htv : w.timeView = 6 ∨ w.timeView = 12 ∨ w.timeView = 24)
    (hdays : 1 ≤ w.numDays)
    (htot : w.totalHoursInRange = w.numDays * 24)
    (hN : w.numChunks = ⌈(w.totalHoursInRange : ℚ) / (w.timeView : ℚ)⌉)
    (hdayEnd : w.dayEnd = w.dayStart + w.numDays * msPerDay - 1)
    (hlo : w.dayStart ≤ dep) (hhi : dep ≤ w.dayEnd) :
    (getFlightPosition w dep arr).visible = true ∧
    0 ≤ (getFlightPosition w dep arr).left ∧
    (getFlightPosition w dep arr).left < 100 ∧
    1/2 ≤ (getFlightPosition w dep arr).width ∧
    (dep = w.dayStart → (getFlightPosition w dep arr).left = 0) ∧
    (dep = w.dayEnd → (getFlightPosition w dep arr).chunkIndex = w.numChunks - 1) := by
  have htvZ := timeView_pos htv
  have htvQ : (0 : ℚ) < (w.timeView : ℚ) := by exact_mod_cast htvZ
  have hNtv := numChunks_mul_timeView w htv htot hN
  have hNpos := numChunks_pos w htv hdays htot hN
  have hNQ : (0 : ℚ) < (w.numChunks : ℚ) := by exact_mod_cast hNpos
  have hmsDay : w.totalHoursInRange * msPerHour = w.numDays * msPerDay := by
    rw [htot]
    simp only [msPerDay]
    ring
  have h0 : 0 ≤ totalHoursFromStart w dep := (totalHoursFromStart_nonneg_iff w dep).mpr hlo
  have h1 : totalHoursFromStart w dep < (w.totalHoursInRange : ℚ) := by
    apply (totalHoursFromStart_lt_iff w dep w.totalHoursInRange).mpr
    rw [hmsDay]
    linarith [hdayEnd ▸ hhi]
  have hNtvQ : (w.numChunks : ℚ) * (w.timeView : ℚ) = (w.totalHoursInRange : ℚ) := by
    exact_mod_cast hNtv
  have hFlt : totalHoursFromStart w dep < (w.numChunks : ℚ) * (w.timeView : ℚ) := by
    rw [hNtvQ]
    exact h1
  have hpos := getFlightPosition_eq_inside w dep arr htvZ h0 h1
  rw [hpos]
  have hL := left_collapse (totalHoursFromStart w dep) (w.numChunks : ℚ) (w.timeView : ℚ)
    hNQ.ne.symm htvQ.ne.symm
  refine ⟨rfl, ?_, ?_, le_max_left _ _, ?_, ?_⟩
  · show 0 ≤ ((⌊totalHoursFromStart w dep / (w.timeView : ℚ)⌋ : ℚ) / (w.numChunks : ℚ)) * 100
        + ((totalHoursFromStart w dep
              - (w.timeView : ℚ) * ⌊totalHoursFromStart w dep / (w.timeView : ℚ)⌋)
            / (w.timeView : ℚ)) * (100 / (w.numChunks : ℚ))
    rw [hL]
    exact div_nonneg (mul_nonneg (by norm_num) h0) (mul_nonneg hNQ.le htvQ.le)
  · show ((⌊totalHoursFromStart w dep / (w.timeView : ℚ)⌋ : ℚ) / (w.numChunks : ℚ)) * 100
        + ((totalHoursFromStart w dep
              - (w.timeView : ℚ) * ⌊totalHoursFromStart w dep / (w.timeView : ℚ)⌋)
            / (w.timeView : ℚ)) * (100 / (w.numChunks : ℚ)) < 100
    rw [hL, div_lt_iff (by positivity)]
    linarith
  · intro hds
    show ((⌊totalHoursFromStart w dep / (w.timeView : ℚ)⌋ : ℚ) / (w.numChunks : ℚ)) * 100
        + ((totalHoursFromStart w dep
              - (w.timeView : ℚ) * ⌊totalHoursFromStart w dep / (w.timeView : ℚ)⌋)
            / (w.timeView : ℚ)) * (100 / (w.numChunks : ℚ)) = 0
    have hF0 : totalHoursFromStart w dep = 0 := by
      unfold totalHoursFromStart
      rw [hds]
      simp
    rw [hL, hF0]
    simp
  · intro hdE
    show (⌊totalHoursFromStart w dep / (w.timeView : ℚ)⌋ : ℤ) = w.numChunks - 1
    have hdepval : (dep - w.dayStart : ℤ) = w.numDays * msPerDay - 1 := by
      rw [hdE, hdayEnd]
      ring
    have hFval : totalHoursFromStart w dep
        = ((w.numDays * msPerDay - 1 : ℤ) : ℚ) / ((1000 * 60 * 60 : ℤ) : ℚ) := by
      unfold totalHoursFromStart
      rw [hdepval]
    rw [Int.floor_eq_iff]
    constructor
    · push_cast
      rw [le_div_iff htvQ, hFval, le_div_iff (by norm_num)]
      have key : ((w.numChunks : ℚ) - 1) * (w.timeView : ℚ) * ((1000 * 60 * 60 : ℤ) : ℚ)
          = ((w.numDays * msPerDay - w.timeView * msPerHour : ℤ) : ℚ) := by
        push_cast
        rw [show ((w.numChunks : ℚ) - 1) * (w.timeView : ℚ)
            = (w.numChunks : ℚ) * (w.timeView : ℚ) - (w.timeView : ℚ) from by ring, hNtvQ]
        have : (w.totalHoursInRange : ℚ) = ((w.numDays * 24 : ℤ) : ℚ) := by
          exact_mod_cast htot
        rw [this]
        simp only [msPerDay, msPerHour]
        push_cast
        ring
      rw [key]
      have hZ : (w.numDays * msPerDay - w.timeView * msPerHour : ℤ)
          ≤ w.numDays * msPerDay - 1 := by
        have : (1 : ℤ) ≤ w.timeView * msPerHour := by
          have h1le : (1 : ℤ) ≤ w.timeView := htvZ
          have : (1 : ℤ) * 1 ≤ w.timeView * msPerHour := by
            apply mul_le_mul h1le (by norm_num [msPerHour]) (by norm_num) (by omega)
          linarith
        omega
      exact_mod_cast hZ
    · push_cast
      rw [div_lt_iff htvQ]
      have : ((w.numChunks : ℚ) - 1 + 1) * (w.timeView : ℚ)
          = (w.numChunks : ℚ) * (w.timeView : ℚ) := by ring
      rw [this]
      exact hFlt

/-- C2 witness: the two-day window over days 0 and 1 with 12-hour chunks
and a departure exactly at `dayStart`. -/
theorem getFlightPosition_in_window_bounds_witness :
    ((ganttWindow (pickedStartInstant 0) (pickedEndInstant 1) 12).dayStart ≤ 0 ∧
     (0 : ℤ) ≤ (ganttWindow (pickedStartInstant 0) (pickedEndInstant 1) 12).dayEnd) ∧
    ((getFlightPosition (ganttWindow (pickedStartInstant 0) (pickedEndInstant 1) 12)
        0 3600000).visible = true ∧
     0 ≤ (getFlightPosition (ganttWindow (pickedStartInstant 0) (pickedEndInstant 1) 12)
        0 3600000).left ∧
     (getFlightPosition (ganttWindow (pickedStartInstant 0) (pickedEndInstant 1) 12)
        0 3600000).left < 100 ∧
     1/2 ≤ (getFlightPosition (ganttWindow (pickedStartInstant 0) (pickedEndInstant 1) 12)
        0 3600000).width ∧
     ((0 : ℤ) = (ganttWindow (pickedStartInstant 0) (pickedEndInstant 1) 12).dayStart →
       (getFlightPosition (ganttWindow (pickedStartInstant 0) (pickedEndInstant 1) 12)
          0 3600000).left = 0) ∧
     ((0 : ℤ) = (ganttWindow (pickedStartInstant 0) (pickedEndInstant 1) 12).dayEnd →
       (getFlightPosition (ganttWindow (pickedStartInstant 0) (pickedEndInstant 1) 12)
          0 3600000).chunkIndex
         = (ganttWindow (pickedStartInstant 0) (pickedEndInstant 1) 12).numChunks - 1)) :=
  ⟨⟨by decide, by decide⟩,
   getFlightPosition_in_window_bounds
     (ganttWindow (pickedStartInstant 0) (pickedEndInstant 1) 12) 0 3600000
     (Or.inr (Or.inl rfl)) (by decide) rfl rfl (by decide) (by decide) (by decide)⟩
/-- The separators chunk `c` contributes, with `M` the total chunk count
used in the position denominators; definitionally the loop body of
`generateHourSeparators`. -/
def sepChunkKept (M tv c : ℕ) : List Separator :=
  (List.range (tv + 1)).filterMap fun (hour : ℕ) =>
    if hour = 0 ∧ 0 < c then none
    else some { position := ((c : ℚ) / (M : ℚ)) * 100 + ((hour : ℚ) / (tv : ℚ)) * (100 / (M : ℚ))
                chunkIndex := c
                hour := hour }

lemma generateHourSeparators_eq (N tv : ℕ) :
    generateHourSeparators N tv = (List.range N).flatMap (sepChunkKept N tv) := rfl

lemma filterMap_some_eq_map {α β : Type} (f : α → β) (l : List α) :
    l.filterMap (fun a => some (f a)) = l.map f := by
  induction l with
  | nil => rfl
  | cons a l ih => simp [List.filterMap_cons, ih]

/-- Mapping each emitted separator to its key `chunkIndex * timeView + hour`
turns a chunk contribution into a record-free filterMap. -/
lemma sepChunkKept_keys (M tv c : ℕ) :
    (sepChunkKept M tv c).map (fun s => s.chunkIndex * tv + s.hour)
      = (List.range (tv + 1)).filterMap
          (fun a => if a = 0 ∧ 0 < c then none else some (c * tv + a)) := by
  unfold sepChunkKept
  rw [List.map_filterMap]
  apply List.filterMap_congr
  intro a ha
  split_ifs <;> simp

lemma keyfun_zero (tv c : ℕ) (hc : c = 0) :
    (List.range (tv + 1)).filterMap
        (fun a => if a = 0 ∧ 0 < c then none else some (c * tv + a))
      = List.range (tv + 1) := by
  subst hc
  have h : (fun (a : ℕ) => if a = 0 ∧ 0 < 0 then none else some (0 * tv + a))
      = fun (a : ℕ) => some a := by
    funext a
    simp
  rw [h, filterMap_some_eq_map]
  simp

lemma keyfun_pos (tv c : ℕ) (hc : 0 < c) :
    (List.range (tv + 1)).filterMap
        (fun a => if a = 0 ∧ 0 < c then none else some (c * tv + a))
      = (List.range tv).map (fun k => c * tv + 1 + k) := by
  rw [List.range_succ_eq_map]
  rw [List.filterMap_cons_none (by simp [hc]), List.filterMap_map]
  have h : ((fun (a : ℕ) => if a = 0 ∧ 0 < c then none else some (c * tv + a)) ∘ Nat.succ)
      = fun (k : ℕ) => some (c * tv + (k + 1)) := by
    funext k
    simp [Nat.succ_ne_zero]
  rw [h, filterMap_some_eq_map]
  apply List.map_congr_left
  intro k hk
  omega

/-- The key `chunkIndex * timeView + hour` enumerates the emitted
separators consecutively: the whole list of keys is `0, 1, ..., n*tv`. -/
lemma flatMap_sepChunkKept_keys (M tv n : ℕ) :
    ((List.range n).flatMap (sepChunkKept M tv)).map (fun s => s.chunkIndex * tv + s.hour)
      = if n = 0 then [] else List.range (n * tv + 1) := by
  induction n with
  | zero => simp
  | succ n ih =>
    rw [List.range_succ, List.flatMap_append, List.map_append, ih]
    by_cases hn : n = 0
    · subst hn
      simp only [if_pos rfl, if_neg (Nat.one_ne_zero), List.nil_append, one_mul]
      simpa using (sepChunkKept_keys M tv 0).trans (keyfun_zero tv 0 rfl)
    · rw [if_neg hn, if_neg (Nat.succ_ne_zero n)]
      simp only [List.flatMap_cons, List.flatMap_nil, List.append_nil]
      rw [sepChunkKept_keys M tv n, keyfun_pos tv n (Nat.pos_of_ne_zero hn)]
      have h2 : (n + 1) * tv + 1 = (n * tv + 1) + tv := by ring
      conv_rhs => rw [h2, List.range_add]

/-- The position of every emitted separator is its key rescaled by
`100 / (numChunks * timeView)`. -/
lemma sepChunkKept_position (M tv : ℕ) (hM : M ≠ 0) (htv : tv ≠ 0) (n : ℕ) :
    ∀ s ∈ (List.range n).flatMap (sepChunkKept M tv),
      s.position = ((s.chunkIndex * tv + s.hour : ℕ) : ℚ) * (100 / ((M : ℚ) * (tv : ℚ))) := by
  intro s hs
  simp only [List.mem_flatMap, List.mem_range] at hs
  obtain ⟨c, hc, hmem⟩ := hs
  unfold sepChunkKept at hmem
  simp only [List.mem_filterMap, List.mem_range] at hmem
  obtain ⟨a, ha, hfa⟩ := hmem
  by_cases hcond : a = 0 ∧ 0 < c
  · rw [if_pos hcond] at hfa
    cases hfa
  · rw [if_neg hcond] at hfa
    have hs' := Option.some.inj hfa
    subst hs'
    have hMQ : (M : ℚ) ≠ 0 := Nat.cast_ne_zero.mpr hM
    have htvQ : (tv : ℚ) ≠ 0 := Nat.cast_ne_zero.mpr htv
    show ((c : ℚ) / (M : ℚ)) * 100 + ((a : ℚ) / (tv : ℚ)) * (100 / (M : ℚ))
        = ((c * tv + a : ℕ) : ℚ) * (100 / ((M : ℚ) * (tv : ℚ)))
    push_cast
    field_simp
    ring

/-- The list of separator positions is exactly `k * (100 / (N * tv))` for
`k = 0, 1, ..., N * tv`. -/
lemma hourSeparators_positions_eq (N tv : ℕ) (hN : N ≠ 0) (htv : tv ≠ 0) :
    (generateHourSeparators N tv).map (fun s => s.position)
      = (List.range (N * tv + 1)).map
          (fun k => ((k : ℕ) : ℚ) * (100 / ((N : ℚ) * (tv : ℚ)))) := by
  rw [generateHourSeparators_eq]
  have hkeys := flatMap_sepChunkKept_keys N tv N
  rw [if_neg hN] at hkeys
  have hcongr : ((List.range N).flatMap (sepChunkKept N tv)).map (fun s => s.position)
      = ((List.range N).flatMap (sepChunkKept N tv)).map
          ((fun k : ℕ => (k : ℚ) * (100 / ((N : ℚ) * (tv : ℚ))))
            ∘ (fun s => s.chunkIndex * tv + s.hour)) := by
    apply List.map_congr_left
    intro s hs
    exact sepChunkKept_position N tv hN htv N s hs
  rw [hcongr, ← List.map_map, hkeys]

/-- C10: the separator position list is strictly increasing, duplicate
free, starts at exactly 0, and ends at exactly 100. -/
theorem hourSeparators_positions_strict_mono (N tv : ℕ) (hN : 1 ≤ N)
    (htv : tv = 6 ∨ tv = 12 ∨ tv = 24) :
    List.Pairwise (· < ·) ((generateHourSeparators N tv).map (fun s => s.position)) ∧
    ((generateHourSeparators N tv).map (fun s => s.position)).Nodup ∧
    ((generateHourSeparators N tv).map (fun s => s.position)).head? = some 0 ∧
    ((generateHourSeparators N tv).map (fun s => s.position)).getLast? = some 100 := by
  have hN0 : N ≠ 0 := by omega
  have htv0 : tv ≠ 0 := by rcases htv with h | h | h <;> simp [h]
  have hNQ : (0 : ℚ) < (N : ℚ) := Nat.cast_pos.mpr (Nat.pos_of_ne_zero hN0)
  have htvQ : (0 : ℚ) < (tv : ℚ) := Nat.cast_pos.mpr (Nat.pos_of_ne_zero htv0)
  rw [hourSeparators_positions_eq N tv hN0 htv0]
  have hpw : List.Pairwise (· < ·)
      ((List.range (N * tv + 1)).map
        (fun k => ((k : ℕ) : ℚ) * (100 / ((N : ℚ) * (tv : ℚ))))) := by
    rw [List.pairwise_map]
    apply (List.pairwise_lt_range _).imp
    intro a b hab
    have hcast : (a : ℚ) < (b : ℚ) := by exact_mod_cast hab
    have hpos : (0 : ℚ) < 100 / ((N : ℚ) * (tv : ℚ)) := by positivity
    exact mul_lt_mul_of_pos_right hcast hpos
  refine ⟨hpw, hpw.imp (fun h => ne_of_lt h), ?_, ?_⟩
  · have h1 : N * tv + 1 = (0 + 1) + N * tv := by ring
    rw [List.range_succ_eq_map]
    simp
  · rw [List.range_succ, List.map_append]
    simp only [List.map_cons, List.map_nil, List.getLast?_concat]
    congr 1
    push_cast
    field_simp

/-- C10 witness: two chunks of 6 hours. -/
theorem hourSeparators_positions_strict_mono_witness :
    List.Pairwise (· < ·) ((generateHourSeparators 2 6).map (fun s => s.position)) ∧
    ((generateHourSeparators 2 6).map (fun s => s.position)).Nodup ∧
    ((generateHourSeparators 2 6).map (fun s => s.position)).head? = some 0 ∧
    ((generateHourSeparators 2 6).map (fun s => s.position)).getLast? = some 100 :=
  hourSeparators_positions_strict_mono 2 6 (by decide) (Or.inl rfl)

/-- C5: a separator is emitted exactly for the chunks `c < numChunks` and
hour boundaries `h ≤ timeView`, excluding `h = 0` for chunks after the
first, at position `(c / numChunks) * 100 + (h / timeView) *
(100 / numChunks)`; and no (chunk, hour) boundary is emitted twice. -/
theorem generateHourSeparators_spec (N tv : ℕ) (s : Separator) (hN : 1 ≤ N)
    (htv : tv = 6 ∨ tv = 12 ∨ tv = 24) :
    (s ∈ generateHourSeparators N tv ↔
      s.chunkIndex < N ∧ s.hour ≤ tv ∧ ¬(s.hour = 0 ∧ 0 < s.chunkIndex) ∧
      s.position = ((s.chunkIndex : ℚ) / (N : ℚ)) * 100
        + ((s.hour : ℚ) / (tv : ℚ)) * (100 / (N : ℚ))) ∧
    ((generateHourSeparators N tv).map (fun t => (t.chunkIndex, t.hour))).Nodup := by
  constructor
  · constructor
    · intro hmem
      rw [generateHourSeparators_eq] at hmem
      simp only [List.mem_flatMap, List.mem_range] at hmem
      obtain ⟨c, hc, hmem⟩ := hmem
      unfold sepChunkKept at hmem
      simp only [List.mem_filterMap, List.mem_range] at hmem
      obtain ⟨a, ha, hfa⟩ := hmem
      by_cases hcond : a = 0 ∧ 0 < c
      · rw [if_pos hcond] at hfa
        cases hfa
      · rw [if_neg hcond] at hfa
        have hs' := Option.some.inj hfa
        subst hs'
        dsimp only
        exact ⟨hc, by omega, hcond, rfl⟩
    · rintro ⟨h1, h2, h3, h4⟩
      obtain ⟨spos, sc, sh⟩ := s
      dsimp only at h1 h2 h3 h4
      rw [generateHourSeparators_eq]
      simp only [List.mem_flatMap, List.mem_range]
      refine ⟨sc, h1, ?_⟩
      unfold sepChunkKept
      simp only [List.mem_filterMap, List.mem_range]
      refine ⟨sh, by omega, ?_⟩
      rw [if_neg h3, h4]
  · have hkeys := flatMap_sepChunkKept_keys N tv N
    rw [if_neg (by omega : N ≠ 0)] at hkeys
    have hkeysnodup :
        (((List.range N).flatMap (sepChunkKept N tv)).map
          (fun t => t.chunkIndex * tv + t.hour)).Nodup := by
      rw [hkeys]
      exact List.nodup_range _
    rw [generateHourSeparators_eq]
    have hfac : ((List.range N).flatMap (sepChunkKept N tv)).map
          (fun t => t.chunkIndex * tv + t.hour)
        = (((List.range N).flatMap (sepChunkKept N tv)).map
            (fun t => (t.chunkIndex, t.hour))).map (fun p => p.1 * tv + p.2) := by
      rw [List.map_map]
      rfl
    rw [hfac] at hkeysnodup
    exact hkeysnodup.of_map _

/-- C5 witness: chunk 1, hour 3 of a 2-chunk 6-hour window sits at 75
percent, and the emitted (chunk, hour) pairs are duplicate free. -/
theorem generateHourSeparators_spec_witness :
    (({ position := 75, chunkIndex := 1, hour := 3 } : Separator)
        ∈ generateHourSeparators 2 6 ↔
      1 < 2 ∧ 3 ≤ 6 ∧ ¬(3 = 0 ∧ 0 < 1) ∧
      (75 : ℚ) = (((1 : ℕ) : ℚ) / ((2 : ℕ) : ℚ)) * 100
        + (((3 : ℕ) : ℚ) / ((6 : ℕ) : ℚ)) * (100 / ((2 : ℕ) : ℚ))) ∧
    ((generateHourSeparators 2 6).map (fun t => (t.chunkIndex, t.hour))).Nodup :=
  generateHourSeparators_spec 2 6 { position := 75, chunkIndex := 1, hour := 3 }
    (by decide) (Or.inl rfl)

lemma mem_generateTimeLabels (N tv : ℕ) (lbl : TimeLabel) :
    lbl ∈ generateTimeLabels N tv ↔
      ∃ c k, c < N ∧ k < (tv + timeLabelInterval tv - 1) / timeLabelInterval tv ∧
        lbl = { hour := (c * tv + k * timeLabelInterval tv) % 24
                chunkIndex := c
                width := timeLabelInterval tv
                label := padStart2 (toString ((c * tv + k * timeLabelInterval tv) % 24))
                  ++ ":00" } := by
  unfold generateTimeLabels hourSteps
  simp only [List.mem_flatMap, List.mem_map, List.mem_range]
  constructor
  · rintro ⟨c, hc, x, ⟨k, hk, rfl⟩, rfl⟩
    exact ⟨c, k, hc, hk, rfl⟩
  · rintro ⟨c, k, hc, hk, rfl⟩
    exact ⟨c, hc, k * timeLabelInterval tv, ⟨k, hk, rfl⟩, rfl⟩

/-- C6: the tick interval is 1 hour for the 24-hour and 6-hour views and
2 hours for the 12-hour view; a tick is emitted per chunk at each multiple
of the interval below `timeView`; and every emitted label shows the
absolute hour reduced mod 24, zero-padded to two digits. -/
theorem generateTimeLabels_spec (N tv : ℕ) (lbl : TimeLabel)
    (htv : tv = 6 ∨ tv = 12 ∨ tv = 24) :
    timeLabelInterval tv = (if tv = 12 then 2 else 1) ∧
    (lbl ∈ generateTimeLabels N tv ↔
      ∃ c k, c < N ∧ k * timeLabelInterval tv < tv ∧
        lbl = { hour := (c * tv + k * timeLabelInterval tv) % 24
                chunkIndex := c
                width := timeLabelInterval tv
                label := padStart2 (toString ((c * tv + k * timeLabelInterval tv) % 24))
                  ++ ":00" }) ∧
    (lbl ∈ generateTimeLabels N tv →
      lbl.hour < 24 ∧ lbl.label = padStart2 (toString lbl.hour) ++ ":00" ∧
      (padStart2 (toString lbl.hour)).length = 2) := by
  refine ⟨?_, ?_, ?_⟩
  · rcases htv with rfl | rfl | rfl <;> rfl
  · rw [mem_generateTimeLabels]
    rcases htv with rfl | rfl | rfl
    · have hi : timeLabelInterval 6 = 1 := rfl
      rw [hi]
      constructor
      · rintro ⟨c, k, hc, hk, rfl⟩
        exact ⟨c, k, hc, by omega, rfl⟩
      · rintro ⟨c, k, hc, hk, rfl⟩
        exact ⟨c, k, hc, by omega, rfl⟩
    · have hi : timeLabelInterval 12 = 2 := rfl
      rw [hi]
      constructor
      · rintro ⟨c, k, hc, hk, rfl⟩
        exact ⟨c, k, hc, by omega, rfl⟩
      · rintro ⟨c, k, hc, hk, rfl⟩
        exact ⟨c, k, hc, by omega, rfl⟩
    · have hi : timeLabelInterval 24 = 1 := rfl
      rw [hi]
      constructor
      · rintro ⟨c, k, hc, hk, rfl⟩
        exact ⟨c, k, hc, by omega, rfl⟩
      · rintro ⟨c, k, hc, hk, rfl⟩
        exact ⟨c, k, hc, by omega, rfl⟩
  · intro hmem
    rw [mem_generateTimeLabels] at hmem
    obtain ⟨c, k, hc, hk, rfl⟩ := hmem
    dsimp only
    have hlt : (c * tv + k * timeLabelInterval tv) % 24 < 24 :=
      Nat.mod_lt _ (by norm_num)
    have hall : ∀ h : ℕ, h < 24 → (padStart2 (toString h)).length = 2 := by decide
    exact ⟨hlt, rfl, hall _ hlt⟩

/-- C6 witness: in a single 12-hour chunk the tick at offset 6 (the fourth
tick, interval 2) is labelled 06:00. -/
theorem generateTimeLabels_spec_witness :
    timeLabelInterval 12 = (if 12 = 12 then 2 else 1) ∧
    (({ hour := 6, chunkIndex := 0, width := 2, label := "06:00" } : TimeLabel)
        ∈ generateTimeLabels 1 12 ↔
      ∃ c k, c < 1 ∧ k * timeLabelInterval 12 < 12 ∧
        ({ hour := 6, chunkIndex := 0, width := 2, label := "06:00" } : TimeLabel)
          = { hour := (c * 12 + k * timeLabelInterval 12) % 24
              chunkIndex := c
              width := timeLabelInterval 12
              label := padStart2 (toString ((c * 12 + k * timeLabelInterval 12) % 24))
                ++ ":00" }) ∧
    (({ hour := 6, chunkIndex := 0, width := 2, label := "06:00" } : TimeLabel)
        ∈ generateTimeLabels 1 12 →
      ({ hour := 6, chunkIndex := 0, width := 2, label := "06:00" } : TimeLabel).hour < 24 ∧
      ({ hour := 6, chunkIndex := 0, width := 2, label := "06:00" } : TimeLabel).label
        = padStart2 (toString
            ({ hour := 6, chunkIndex := 0, width := 2, label := "06:00" } : TimeLabel).hour)
          ++ ":00" ∧
      (padStart2 (toString
          ({ hour := 6, chunkIndex := 0, width := 2, label := "06:00" } : TimeLabel).hour)).length
        = 2) :=
  generateTimeLabels_spec 1 12 { hour := 6, chunkIndex := 0, width := 2, label := "06:00" }
    (Or.inr (Or.inl rfl))

end Gantt
